import Mathlib

/-!
Verification of the `deep-kexpfam` derivative-computation core (`LiteNet.py`).

The numeric tensors of the original program are embedded as functions
`Fin m → Fin d → ℚ` (a batch of `m` feature vectors of dimension `d`), and the
TensorFlow reductions/einsums become explicit `Finset` sums.  The elementwise
exponential `tf.exp (-0.5/sigma * _)` is a host numerical primitive; it is kept
abstract as a function parameter `gexp : ℚ → ℚ` applied to the argument the
code builds, so every identity proved below holds for the real exponential in
particular.
-/

namespace DKEF

open scoped Matrix

/-! ## GaussianKernel (`LiteNet.py` lines 377-498) -/

/-- `GaussianKernel.get_pdist2` (lines 397-409): pairwise squared distances via
the expansion `||x||^2 - 2 x.y + ||y||^2`. -/
def get_pdist2 {m n d : ℕ} (X : Fin m → Fin d → ℚ) (Y : Fin n → Fin d → ℚ) :
    Fin m → Fin n → ℚ :=
  fun i j => (∑ k, (X i k) ^ 2) - 2 * (∑ k, X i k * Y j k) + ∑ k, (Y j k) ^ 2

/-- `GaussianKernel.get_gram_matrix` (lines 411-416): `exp(-0.5/sigma * pdist2)`,
with the host exponential abstracted as `gexp`. -/
def get_gram_matrix {m n d : ℕ} (gexp : ℚ → ℚ) (sigma : ℚ)
    (X : Fin m → Fin d → ℚ) (Y : Fin n → Fin d → ℚ) : Fin m → Fin n → ℚ :=
  fun i j => gexp (-0.5 / sigma * get_pdist2 X Y i j)

/-- The pairwise difference tensor `D = (X[:,None] - Y[None]) / sigma` shared
by the kernel derivative methods (lines 434, 448, 467). -/
def kdiff {m n d : ℕ} (sigma : ℚ) (X : Fin m → Fin d → ℚ)
    (Y : Fin n → Fin d → ℚ) : Fin m → Fin n → Fin d → ℚ :=
  fun i j k => (X i k - Y j k) / sigma

/-- `tf.eye(d)` (lines 450, 473). -/
def eye (d : ℕ) : Fin d → Fin d → ℚ :=
  fun k l => if k = l then 1 else 0

/-- `GaussianKernel.get_grad_gram` (lines 426-439): the pair `(K, gram)` where
`K = gram[:,:,None] * D` and `D = (X[:,None] - Y[None]) / sigma`. -/
def get_grad_gram {m n d : ℕ} (gexp : ℚ → ℚ) (sigma : ℚ)
    (X : Fin m → Fin d → ℚ) (Y : Fin n → Fin d → ℚ) :
    (Fin m → Fin n → Fin d → ℚ) × (Fin m → Fin n → ℚ) :=
  let gram := get_gram_matrix gexp sigma X Y
  (fun i j k => gram i j * kdiff sigma X Y i j k, gram)

/-- `GaussianKernel.get_grad` (lines 419-424): first component of
`get_grad_gram`. -/
def get_grad {m n d : ℕ} (gexp : ℚ → ℚ) (sigma : ℚ)
    (X : Fin m → Fin d → ℚ) (Y : Fin n → Fin d → ℚ) :
    Fin m → Fin n → Fin d → ℚ :=
  (get_grad_gram gexp sigma X Y).1

/-- `GaussianKernel.get_hess` (lines 441-455): `gram * (D2 - I)` where
`D2[i,j,k,l] = D[i,j,k]*D[i,j,l]` and `I = eye(d)/sigma`. -/
def get_hess {m n d : ℕ} (gexp : ℚ → ℚ) (sigma : ℚ)
    (X : Fin m → Fin d → ℚ) (Y : Fin n → Fin d → ℚ) :
    Fin m → Fin n → Fin d → Fin d → ℚ :=
  let gram := get_gram_matrix gexp sigma X Y
  let D := kdiff sigma X Y
  let D2 := fun i j k l => D i j k * D i j l
  let I := fun k l => eye d k l / sigma
  fun i j k l => gram i j * (D2 i j k l - I k l)

/-- `GaussianKernel.get_grad_hess` (lines 457-478): both derivative tensors
computed from a single Gram matrix. -/
def get_grad_hess {m n d : ℕ} (gexp : ℚ → ℚ) (sigma : ℚ)
    (X : Fin m → Fin d → ℚ) (Y : Fin n → Fin d → ℚ) :
    (Fin m → Fin n → Fin d → ℚ) × (Fin m → Fin n → Fin d → Fin d → ℚ) :=
  let gram := get_gram_matrix gexp sigma X Y
  let D := kdiff sigma X Y
  let D2 := fun i j k l => D i j k * D i j l
  let I := fun k l => eye d k l / sigma
  ( fun i j k => gram i j * D i j k
  , fun i j k l => gram i j * (D2 i j k l - I k l) )

/-- Spec-side direct pairwise squared distance: `||x_i - y_j||^2` computed
coordinate by coordinate (the comparison target of claim C5). -/
def pdist2_direct {m n d : ℕ} (X : Fin m → Fin d → ℚ) (Y : Fin n → Fin d → ℚ) :
    Fin m → Fin n → ℚ :=
  fun i j => ∑ k, (X i k - Y j k) ^ 2

/-- Spec-side Gaussian Hessian formula: `K[i,j] * (outer(d_ij, d_ij) - I/sigma)`
with `d_ij = (x_i - y_j)/sigma` and `I` the `d×d` identity (claim C6). -/
def hess_formula {m n d : ℕ} (gexp : ℚ → ℚ) (sigma : ℚ)
    (X : Fin m → Fin d → ℚ) (Y : Fin n → Fin d → ℚ) :
    Fin m → Fin n → Fin d → Fin d → ℚ :=
  fun i j k l =>
    get_gram_matrix gexp sigma X Y i j *
      (((X i k - Y j k) / sigma) * ((X i l - Y j l) / sigma) -
        (if k = l then (1 : ℚ) else 0) / sigma)

lemma get_pdist2_eq_direct {m n d : ℕ} (X : Fin m → Fin d → ℚ)
    (Y : Fin n → Fin d → ℚ) (i : Fin m) (j : Fin n) :
    get_pdist2 X Y i j = pdist2_direct X Y i j := by
  unfold get_pdist2 pdist2_direct
  rw [Finset.mul_sum, ← Finset.sum_sub_distrib, ← Finset.sum_add_distrib]
  exact Finset.sum_congr rfl (fun k _ => by ring)

/-- Claim C5: `get_gram_matrix X Y` has `(i,j)` entry
`exp(-||x_i - y_j||^2 / (2*sigma))`, and the squared distance computed via the
expansion `||x||^2 - 2 x.y + ||y||^2` equals the directly computed pairwise
squared distance. -/
theorem claim_C5 {m n d : ℕ} (gexp : ℚ → ℚ) (sigma : ℚ) (hs : 0 < sigma)
    (X : Fin m → Fin d → ℚ) (Y : Fin n → Fin d → ℚ) (i : Fin m) (j : Fin n) :
    get_pdist2 X Y i j = pdist2_direct X Y i j ∧
      get_gram_matrix gexp sigma X Y i j =
        gexp (-(pdist2_direct X Y i j) / (2 * sigma)) := by
  refine ⟨get_pdist2_eq_direct X Y i j, ?_⟩
  unfold get_gram_matrix
  rw [get_pdist2_eq_direct X Y i j]
  congr 1
  field_simp
  ring

/-- Witness for C5 at a concrete instance. -/
theorem claim_C5_witness :
    (0 : ℚ) < 1 ∧
      (get_pdist2 (fun (_ : Fin 1) (_ : Fin 1) => (3 : ℚ))
          (fun (_ : Fin 1) (_ : Fin 1) => (1 : ℚ)) 0 0 =
        pdist2_direct (fun (_ : Fin 1) (_ : Fin 1) => (3 : ℚ))
          (fun (_ : Fin 1) (_ : Fin 1) => (1 : ℚ)) 0 0 ∧
      get_gram_matrix id 1 (fun (_ : Fin 1) (_ : Fin 1) => (3 : ℚ))
          (fun (_ : Fin 1) (_ : Fin 1) => (1 : ℚ)) 0 0 =
        id (-(pdist2_direct (fun (_ : Fin 1) (_ : Fin 1) => (3 : ℚ))
          (fun (_ : Fin 1) (_ : Fin 1) => (1 : ℚ)) 0 0) / (2 * 1))) :=
  ⟨by norm_num,
    claim_C5 id 1 (by norm_num) (fun _ _ => 3) (fun _ _ => 1) 0 0⟩

/-- Claim C6: `get_hess X Y` has `(i,j)` block
`K[i,j] * (outer(d_ij, d_ij) - I/sigma)` with `d_ij = (x_i - y_j)/sigma`. -/
theorem claim_C6 {m n d : ℕ} (gexp : ℚ → ℚ) (sigma : ℚ) (_hs : 0 < sigma)
    (X : Fin m → Fin d → ℚ) (Y : Fin n → Fin d → ℚ)
    (i : Fin m) (j : Fin n) (k l : Fin d) :
    get_hess gexp sigma X Y i j k l = hess_formula gexp sigma X Y i j k l :=
  rfl

/-- Witness for C6 at a concrete instance. -/
theorem claim_C6_witness :
    (0 : ℚ) < 1 ∧
      get_hess id 1 (fun (_ : Fin 1) (_ : Fin 2) => (2 : ℚ))
          (fun (_ : Fin 1) (_ : Fin 2) => (0 : ℚ)) 0 0 0 1 =
        hess_formula id 1 (fun (_ : Fin 1) (_ : Fin 2) => (2 : ℚ))
          (fun (_ : Fin 1) (_ : Fin 2) => (0 : ℚ)) 0 0 0 1 :=
  ⟨by norm_num,
    claim_C6 id 1 (by norm_num) (fun _ _ => 2) (fun _ _ => 0) 0 0 0 1⟩

/-- Claim C7: the fused `get_grad_hess` returns exactly the pair
`(get_grad, get_hess)`. -/
theorem claim_C7 {m n d : ℕ} (gexp : ℚ → ℚ) (sigma : ℚ) (_hs : 0 < sigma)
    (X : Fin m → Fin d → ℚ) (Y : Fin n → Fin d → ℚ) :
    get_grad_hess gexp sigma X Y =
      (get_grad gexp sigma X Y, get_hess gexp sigma X Y) :=
  rfl

/-- Witness for C7 at a concrete instance. -/
theorem claim_C7_witness :
    (0 : ℚ) < 2 ∧
      get_grad_hess id 2 (fun (_ : Fin 2) (_ : Fin 1) => (1 : ℚ))
          (fun (_ : Fin 1) (_ : Fin 1) => (5 : ℚ)) =
        (get_grad id 2 (fun (_ : Fin 2) (_ : Fin 1) => (1 : ℚ))
            (fun (_ : Fin 1) (_ : Fin 1) => (5 : ℚ)),
          get_hess id 2 (fun (_ : Fin 2) (_ : Fin 1) => (1 : ℚ))
            (fun (_ : Fin 1) (_ : Fin 1) => (5 : ℚ))) :=
  ⟨by norm_num, claim_C7 id 2 (by norm_num) (fun _ _ => 1) (fun _ _ => 5)⟩

/-! ## Host linear solve and `KernelNetModel.get_opt_alpha` (lines 160-189) -/

/-- Modelled from the spec: the host dense linear-solve primitive
(`tf.matrix_solve`, an external numerical capability per §6), realized over ℚ
by Cramer's rule `A⁻¹ b = det(A)⁻¹ · adjugate(A) b`. -/
def matrix_solve {M : ℕ} (A : Matrix (Fin M) (Fin M) ℚ) (v : Fin M → ℚ) :
    Fin M → ℚ :=
  (A.det)⁻¹ • (A.adjugate *ᵥ v)

lemma matrix_solve_spec {M : ℕ} (A : Matrix (Fin M) (Fin M) ℚ) (v : Fin M → ℚ)
    (hA : A.det ≠ 0) : A *ᵥ matrix_solve A v = v := by
  unfold matrix_solve
  rw [Matrix.mulVec_smul_assoc, Matrix.mulVec_mulVec, Matrix.mul_adjugate,
    Matrix.smul_mulVec_assoc, Matrix.one_mulVec, smul_smul,
    inv_mul_cancel₀ hA, one_smul]

/-- Composed first input-derivative `dkdx` of `get_opt_alpha` (line 173):
`dkdx[i,j,s] = Σ_k gradK[i,j,k] * dydx[k,j,s]`.  The source as written calls
`self.kernel.get_grad(y)` with a single argument (a `TypeError` at run time);
following the docstring and spec the basis features `X` are supplied as the
kernel's first argument. -/
def opt_dkdx {M B dk Din : ℕ} (gexp : ℚ → ℚ) (sigma : ℚ)
    (X : Fin M → Fin dk → ℚ) (y : Fin B → Fin dk → ℚ)
    (dydx : Fin dk → Fin B → Fin Din → ℚ) : Fin M → Fin B → Fin Din → ℚ :=
  fun i j s => ∑ k, get_grad gexp sigma X y i j k * dydx k j s

/-- Composed second input-derivative `d2kdx2` of `get_opt_alpha`
(lines 176-179), with the same `self.X` correction as `opt_dkdx`. -/
def opt_d2kdx2 {M B dk Din : ℕ} (gexp : ℚ → ℚ) (sigma : ℚ)
    (X : Fin M → Fin dk → ℚ) (y : Fin B → Fin dk → ℚ)
    (dydx d2ydx2 : Fin dk → Fin B → Fin Din → ℚ) :
    Fin M → Fin B → Fin Din → ℚ :=
  fun i j s =>
    (∑ k, ∑ l, get_hess gexp sigma X y i j k l * (dydx k j s * dydx l j s)) +
      ∑ k, get_grad gexp sigma X y i j k * d2ydx2 k j s

/-- Vector `H` of `get_opt_alpha` (line 181): batch/coordinate sum of
`d2kdx2`. -/
def opt_H {M B dk Din : ℕ} (gexp : ℚ → ℚ) (sigma : ℚ)
    (X : Fin M → Fin dk → ℚ) (y : Fin B → Fin dk → ℚ)
    (dydx d2ydx2 : Fin dk → Fin B → Fin Din → ℚ) : Fin M → ℚ :=
  fun i => ∑ j, ∑ s, opt_d2kdx2 gexp sigma X y dydx d2ydx2 i j s

/-- Matrix `G` of `get_opt_alpha` (lines 182-183): Gram matrix of the composed
first derivatives. -/
def opt_G {M B dk Din : ℕ} (gexp : ℚ → ℚ) (sigma : ℚ)
    (X : Fin M → Fin dk → ℚ) (y : Fin B → Fin dk → ℚ)
    (dydx : Fin dk → Fin B → Fin Din → ℚ) : Matrix (Fin M) (Fin M) ℚ :=
  Matrix.of fun i i2 =>
    ∑ j, ∑ s, opt_dkdx gexp sigma X y dydx i j s * opt_dkdx gexp sigma X y dydx i2 j s

/-- The coefficient solve of `get_opt_alpha` (line 185):
`alpha = matrix_solve(G + 0.1 * eye, -H)`. -/
def get_opt_alpha {M B dk Din : ℕ} (gexp : ℚ → ℚ) (sigma : ℚ)
    (X : Fin M → Fin dk → ℚ) (y : Fin B → Fin dk → ℚ)
    (dydx d2ydx2 : Fin dk → Fin B → Fin Din → ℚ) : Fin M → ℚ :=
  matrix_solve (opt_G gexp sigma X y dydx + (0.1 : ℚ) • 1)
    (-(opt_H gexp sigma X y dydx d2ydx2))

/-- Claim C2: the coefficient vector produced by `get_opt_alpha` satisfies the
ridge-regularized linear system `(G + 0.1*I) alpha = -H` (for the intended
computation; the source's call `kernel.get_grad(y)` omits the required first
argument and raises a `TypeError`, see RESULTS). -/
theorem claim_C2 {M B dk Din : ℕ} (gexp : ℚ → ℚ) (sigma : ℚ)
    (X : Fin M → Fin dk → ℚ) (y : Fin B → Fin dk → ℚ)
    (dydx d2ydx2 : Fin dk → Fin B → Fin Din → ℚ)
    (hdet : (opt_G gexp sigma X y dydx + (0.1 : ℚ) • 1).det ≠ 0) :
    (opt_G gexp sigma X y dydx + (0.1 : ℚ) • 1) *ᵥ
        get_opt_alpha gexp sigma X y dydx d2ydx2 =
      -(opt_H gexp sigma X y dydx d2ydx2) :=
  matrix_solve_spec _ _ hdet

/-- Witness for C2 at a concrete instance (zero network Jacobian, so
`G = 0` and the solved matrix is `0.1 * I`). -/
theorem claim_C2_witness :
    (opt_G id 1 (fun (_ : Fin 1) (_ : Fin 1) => (1 : ℚ))
          (fun (_ : Fin 1) (_ : Fin 1) => (0 : ℚ))
          (fun _ _ (_ : Fin 1) => (0 : ℚ)) + (0.1 : ℚ) • 1).det ≠ 0 ∧
      (opt_G id 1 (fun (_ : Fin 1) (_ : Fin 1) => (1 : ℚ))
          (fun (_ : Fin 1) (_ : Fin 1) => (0 : ℚ))
          (fun _ _ (_ : Fin 1) => (0 : ℚ)) + (0.1 : ℚ) • 1) *ᵥ
        get_opt_alpha id 1 (fun (_ : Fin 1) (_ : Fin 1) => (1 : ℚ))
          (fun (_ : Fin 1) (_ : Fin 1) => (0 : ℚ))
          (fun _ _ (_ : Fin 1) => (0 : ℚ)) (fun _ _ _ => (0 : ℚ)) =
      -(opt_H id 1 (fun (_ : Fin 1) (_ : Fin 1) => (1 : ℚ))
          (fun (_ : Fin 1) (_ : Fin 1) => (0 : ℚ))
          (fun _ _ (_ : Fin 1) => (0 : ℚ)) (fun _ _ _ => (0 : ℚ))) := by
  have hdet : (opt_G id 1 (fun (_ : Fin 1) (_ : Fin 1) => (1 : ℚ))
      (fun (_ : Fin 1) (_ : Fin 1) => (0 : ℚ))
      (fun _ _ (_ : Fin 1) => (0 : ℚ)) + (0.1 : ℚ) • 1).det ≠ 0 := by
    rw [Matrix.det_fin_one]
    simp [opt_G, opt_dkdx, Matrix.add_apply, Matrix.smul_apply,
      Matrix.one_apply_eq]
    norm_num
  exact ⟨hdet, claim_C2 id 1 _ _ _ _ hdet⟩

/-! ## `KernelNetModel._kernel_score_stats` / `kernel_fit` (lines 237-292) -/

/-- The mutable state of a `KernelNetModel` relevant to `kernel_fit`: the owned
coefficient vector `alpha`, the kernel bandwidth, and the processed basis
features `X`. -/
structure KernelNetModelState (M d : ℕ) where
  alpha : Fin M → ℚ
  sigma : ℚ
  X : Fin M → Fin d → ℚ

/-- `KernelNetModel._kernel_score_stats` (lines 237-261): the vector `b` and
matrix `C` of the plain-kernel score statistic, for processed data `Y`. -/
def kernel_score_stats {M n d : ℕ} (gexp : ℚ → ℚ) (sigma : ℚ)
    (X : Fin M → Fin d → ℚ) (Y : Fin n → Fin d → ℚ) :
    (Fin M → ℚ) × Matrix (Fin M) (Fin M) ℚ :=
  let K := get_gram_matrix gexp sigma X Y
  let S := fun (i : Fin M) (j : Fin n) (l : Fin d) => X i l - Y j l
  ( fun i => -(d : ℚ) * (∑ j, K i j) + 1 / sigma * ∑ j, K i j * ∑ l, (S i j l) ^ 2
  , Matrix.of fun i i2 => ∑ j, ∑ l, (S i j l * K i j) * (S i2 j l * K i2 j) )

/-- `KernelNetModel.kernel_fit` (lines 281-292): closed-form coefficient update
`alpha_hat = -sigma * matrix_solve(C, b)`, assigned to the owned `alpha` and
returned.  The `lam` argument is accepted but never used. -/
def kernel_fit {M n d : ℕ} (gexp : ℚ → ℚ) (st : KernelNetModelState M d)
    (Y : Fin n → Fin d → ℚ) (lam : ℚ) :
    (Fin M → ℚ) × KernelNetModelState M d :=
  let bC := kernel_score_stats gexp st.sigma st.X Y
  let alpha_hat := fun i => -st.sigma * matrix_solve bC.2 bC.1 i
  (alpha_hat, { st with alpha := alpha_hat })

/-- Claim C3: `kernel_fit(data, lam)` computes `alpha = -sigma * solve(C, b)`
with `b`, `C` from `_kernel_score_stats`, adds no `lam`-scaled ridge term (two
calls differing only in `lam` coincide), and stores the result in the owned
`alpha` while returning it. -/
theorem claim_C3 {M n d : ℕ} (gexp : ℚ → ℚ) (st : KernelNetModelState M d)
    (Y : Fin n → Fin d → ℚ) (lam lam2 : ℚ) :
    (kernel_fit gexp st Y lam).1 =
        (fun i => -st.sigma *
          matrix_solve (kernel_score_stats gexp st.sigma st.X Y).2
            (kernel_score_stats gexp st.sigma st.X Y).1 i) ∧
      kernel_fit gexp st Y lam = kernel_fit gexp st Y lam2 ∧
      ((kernel_fit gexp st Y lam).2).alpha = (kernel_fit gexp st Y lam).1 ∧
      ((kernel_fit gexp st Y lam).2).sigma = st.sigma ∧
      ((kernel_fit gexp st Y lam).2).X = st.X :=
  ⟨rfl, rfl, rfl, rfl, rfl⟩

/-! ## Cached `pdist2` and `KernelNetModel.score_original` (lines 199-234) -/

/-- The kernel's `pdist2` attribute: initially `None` (line 392), overwritten by
every `get_pdist2` call (line 408). -/
def GramCache (M n : ℕ) : Type := Option (Fin M → Fin n → ℚ)

/-- Stateful `GaussianKernel.get_pdist2` (lines 397-409): returns the distances
and stores them in the `pdist2` attribute. -/
def get_pdist2_st {M n d : ℕ} (X : Fin M → Fin d → ℚ) (Y : Fin n → Fin d → ℚ)
    (_c : GramCache M n) : (Fin M → Fin n → ℚ) × GramCache M n :=
  (get_pdist2 X Y, some (get_pdist2 X Y))

/-- Stateful `GaussianKernel.get_gram_matrix` (lines 411-416): computes the
Gram matrix through `get_pdist2`, inheriting its cache write. -/
def get_gram_matrix_st {M n d : ℕ} (gexp : ℚ → ℚ) (sigma : ℚ)
    (X : Fin M → Fin d → ℚ) (Y : Fin n → Fin d → ℚ) (c : GramCache M n) :
    (Fin M → Fin n → ℚ) × GramCache M n :=
  let pc := get_pdist2_st X Y c
  (fun i j => gexp (-0.5 / sigma * pc.1 i j), pc.2)

/-- `KernelNetModel.score_original` (lines 199-234), stateful: after computing
the Gram matrix of `(X, Y)` it reads the kernel's cached `pdist2` attribute
(`self.kernel.pdist2`, line 215) to build the `D` term.  A `None` cache reads
as zero (never reached here since the Gram computation just wrote it). -/
def score_original {M n d : ℕ} (gexp : ℚ → ℚ) (sigma : ℚ) (alpha : Fin M → ℚ)
    (X : Fin M → Fin d → ℚ) (Y : Fin n → Fin d → ℚ) (c : GramCache M n) :
    ℚ × GramCache M n :=
  let Kc := get_gram_matrix_st gexp sigma X Y c
  let K := Kc.1
  let pd := Kc.2.getD (fun _ _ => 0)
  let D := fun i j => 1 / sigma * pd i j - (d : ℚ)
  let S := fun (i : Fin M) (j : Fin n) (l : Fin d) => X i l - Y j l
  let J1 := (∑ i, ∑ j, alpha i * K i j * D i j) * 1 / (n : ℚ) / sigma
  let J2 := 0.5 / (n : ℚ) / sigma ^ 2 *
    ∑ j, ∑ l, (∑ i, alpha i * S i j l * K i j) ^ 2
  (J1 + J2, Kc.2)

/-- Spec-side reference for claim C10: `score_original` with the `D` term
written directly as `pdist2(X, Y)/sigma - ndim`, no cache involved. -/
def score_original_direct {M n d : ℕ} (gexp : ℚ → ℚ) (sigma : ℚ)
    (alpha : Fin M → ℚ) (X : Fin M → Fin d → ℚ) (Y : Fin n → Fin d → ℚ) : ℚ :=
  let K := get_gram_matrix gexp sigma X Y
  let D := fun i j => get_pdist2 X Y i j / sigma - (d : ℚ)
  let S := fun (i : Fin M) (j : Fin n) (l : Fin d) => X i l - Y j l
  let J1 := (∑ i, ∑ j, alpha i * K i j * D i j) * 1 / (n : ℚ) / sigma
  let J2 := 0.5 / (n : ℚ) / sigma ^ 2 *
    ∑ j, ∑ l, (∑ i, alpha i * S i j l * K i j) ^ 2
  J1 + J2

/-- Claim C10: every `get_gram_matrix` call overwrites the kernel's `pdist2`
cache with the pairwise squared distances of its own arguments, and
`score_original`'s `D` term reads that cache — so, whatever the prior cache
contents, its value equals the direct form with `D = pdist2(X, Y)/sigma - ndim`. -/
theorem claim_C10 {M n d : ℕ} (gexp : ℚ → ℚ) (sigma : ℚ) (alpha : Fin M → ℚ)
    (X : Fin M → Fin d → ℚ) (Y : Fin n → Fin d → ℚ) :
    (∀ c : GramCache M n,
        (get_gram_matrix_st gexp sigma X Y c).2 = some (get_pdist2 X Y)) ∧
      (∀ c : GramCache M n,
        (score_original gexp sigma alpha X Y c).1 =
          score_original_direct gexp sigma alpha X Y) := by
  refine ⟨fun c => rfl, fun c => ?_⟩
  unfold score_original score_original_direct get_gram_matrix_st get_pdist2_st
    get_gram_matrix
  simp only [Option.getD_some, one_div_mul_eq_div]

/-! ## `DeepNetwork` construction (lines 1078-1106) -/

/-- The shape signature of one layer, as consumed by
`DeepNetwork._check_consistency`: declared input shape, output shape (already
as a tuple, mirroring the tupleization on line 1104), and batch size. -/
structure LayerSig where
  ndim_in : List ℕ
  ndim_out : List ℕ
  batch_size : ℕ

/-- The adjacent-shape pass of `DeepNetwork._check_consistency` (lines
1100-1104): each layer's output shape must equal the next layer's input
shape. -/
def shapes_consistent : List LayerSig → Bool
  | [] => true
  | [_] => true
  | a :: b :: rest => (decide (b.ndim_in = a.ndim_out)) && shapes_consistent (b :: rest)

/-- The batch-size pass of `DeepNetwork._check_consistency` (line 1106): every
layer's `batch_size` must equal `self.batch_size = layers[0].batch_size`. -/
def batches_consistent (b0 : ℕ) (layers : List LayerSig) : Bool :=
  layers.all fun l => decide (l.batch_size = b0)

/-- The constructed `DeepNetwork` metadata (lines 1080-1084). -/
structure DeepNetworkSig where
  ndim_in : List ℕ
  ndim_out : List ℕ
  batch_size : ℕ

/-- `DeepNetwork.__init__` (lines 1078-1089): reads `layers[-1]`/`layers[0]`
(failing on an empty list) and runs `_check_consistency`, whose assertions
abort construction; a successfully constructed network is returned as `some`. -/
def DeepNetwork_init (layers : List LayerSig) : Option DeepNetworkSig :=
  match layers with
  | [] => none
  | l0 :: rest =>
    if shapes_consistent (l0 :: rest) && batches_consistent l0.batch_size (l0 :: rest)
    then some { ndim_in := l0.ndim_in
              , ndim_out := ((l0 :: rest).getLast (by simp)).ndim_out
              , batch_size := l0.batch_size }
    else none

lemma shapes_consistent_eq_false {layers : List LayerSig} (i : ℕ)
    (h : i + 1 < layers.length)
    (hne : (layers.get ⟨i + 1, h⟩).ndim_in ≠
      (layers.get ⟨i, Nat.lt_of_succ_lt h⟩).ndim_out) :
    shapes_consistent layers = false := by
  induction layers generalizing i with
  | nil => simp at h
  | cons a rest ih =>
    match rest, h with
    | b :: rest2, h =>
      cases i with
      | zero =>
        simp only [List.get] at hne
        simp [shapes_consistent, hne]
      | succ i2 =>
        have h2 : i2 + 1 < (b :: rest2).length := by
          simpa [Nat.succ_lt_succ_iff] using h
        have := ih i2 h2 (by simpa using hne)
        simp [shapes_consistent, this]

lemma batches_consistent_eq_false {layers : List LayerSig} (b0 : ℕ)
    {l : LayerSig} (hmem : l ∈ layers) (hne : l.batch_size ≠ b0) :
    batches_consistent b0 layers = false := by
  unfold batches_consistent
  rw [List.all_eq_false]
  exact ⟨l, hmem, by simpa using hne⟩

/-- Claim C9: a layer list with some adjacent output/input shape mismatch, or
some layer whose batch size differs from the first layer's, fails at
construction (`DeepNetwork_init` returns `none`), so no such failure can be
deferred to `forward_tensor`. -/
theorem claim_C9 (layers : List LayerSig)
    (hbad :
      (∃ i, ∃ h : i + 1 < layers.length,
          (layers.get ⟨i + 1, h⟩).ndim_in ≠
            (layers.get ⟨i, Nat.lt_of_succ_lt h⟩).ndim_out) ∨
        (∃ l0, ∃ h0 : 0 < layers.length, layers.get ⟨0, h0⟩ = l0 ∧
          ∃ l ∈ layers, l.batch_size ≠ l0.batch_size)) :
    DeepNetwork_init layers = none := by
  match layers with
  | [] => rfl
  | a :: rest =>
    rcases hbad with ⟨i, h, hne⟩ | ⟨l0, h0, hl0, l, hmem, hne⟩
    · have hs := shapes_consistent_eq_false i h hne
      simp [DeepNetwork_init, hs]
    · have ha : l0 = a := by simpa using hl0.symm
      subst ha
      have hb := batches_consistent_eq_false (LayerSig.batch_size l0) hmem hne
      simp [DeepNetwork_init, hb]

/-- Witness for C9: two layers whose shapes mismatch are rejected. -/
theorem claim_C9_witness :
    ((∃ i, ∃ h : i + 1 <
        [LayerSig.mk [2] [3] 5, LayerSig.mk [4] [3] 5].length,
        (([LayerSig.mk [2] [3] 5, LayerSig.mk [4] [3] 5].get
            ⟨i + 1, h⟩).ndim_in ≠
          (([LayerSig.mk [2] [3] 5, LayerSig.mk [4] [3] 5]).get
            ⟨i, Nat.lt_of_succ_lt h⟩).ndim_out)) ∨
      (∃ l0, ∃ h0 : 0 < [LayerSig.mk [2] [3] 5, LayerSig.mk [4] [3] 5].length,
        [LayerSig.mk [2] [3] 5, LayerSig.mk [4] [3] 5].get ⟨0, h0⟩ = l0 ∧
        ∃ l ∈ [LayerSig.mk [2] [3] 5, LayerSig.mk [4] [3] 5],
          l.batch_size ≠ l0.batch_size)) ∧
      DeepNetwork_init [LayerSig.mk [2] [3] 5, LayerSig.mk [4] [3] 5] = none := by
  have hbad : (∃ i, ∃ h : i + 1 <
      [LayerSig.mk [2] [3] 5, LayerSig.mk [4] [3] 5].length,
      (([LayerSig.mk [2] [3] 5, LayerSig.mk [4] [3] 5].get
          ⟨i + 1, h⟩).ndim_in ≠
        (([LayerSig.mk [2] [3] 5, LayerSig.mk [4] [3] 5]).get
          ⟨i, Nat.lt_of_succ_lt h⟩).ndim_out)) ∨
      (∃ l0, ∃ h0 : 0 < [LayerSig.mk [2] [3] 5, LayerSig.mk [4] [3] 5].length,
        [LayerSig.mk [2] [3] 5, LayerSig.mk [4] [3] 5].get ⟨0, h0⟩ = l0 ∧
        ∃ l ∈ [LayerSig.mk [2] [3] 5, LayerSig.mk [4] [3] 5],
          l.batch_size ≠ l0.batch_size) := by
    left
    exact ⟨0, by decide, by decide⟩
  exact ⟨hbad, claim_C9 _ hbad⟩

/-! ## Host autodiff model and `Network.get_sec_data` (lines 503-754)

The spec (§1, §6) treats the automatic-differentiation engine as a host
capability that the core only invokes.  We model the computation graphs the
source builds over the input placeholder `batch` (shape `(B,) + (Din,)`) as a
small scalar expression language, and `tf.gradients` as the symbolic backprop
on it: the gradient of `maximum(x, y)` routes through `x` where `x ≥ y` and
through `y` where `x < y` (TensorFlow's `MaximumGrad` masks), comparison masks
are non-differentiable, and differentiating an expression with no
differentiable path to the placeholder yields `None`. -/

/-- A scalar node of the computation graph over the batch placeholder. -/
inductive TExpr (B Din : ℕ) : Type where
  | var : Fin B → Fin Din → TExpr B Din
  | cst : ℚ → TExpr B Din
  | add : TExpr B Din → TExpr B Din → TExpr B Din
  | mul : TExpr B Din → TExpr B Din → TExpr B Din
  | emax : TExpr B Din → TExpr B Din → TExpr B Din
  | maskGE : TExpr B Din → TExpr B Din → TExpr B Din
  | maskLT : TExpr B Din → TExpr B Din → TExpr B Din

/-- Numeric evaluation of a graph node for a concrete feed of the batch
placeholder. -/
def teval {B Din : ℕ} (env : Fin B → Fin Din → ℚ) : TExpr B Din → ℚ
  | .var j k => env j k
  | .cst c => c
  | .add a b => teval env a + teval env b
  | .mul a b => teval env a * teval env b
  | .emax a b => max (teval env a) (teval env b)
  | .maskGE a b => if teval env b ≤ teval env a then 1 else 0
  | .maskLT a b => if teval env a < teval env b then 1 else 0

/-- Modelled from the spec: backprop reachability of one placeholder entry `v`
from a node, through differentiable ops only (comparison masks block it). -/
def depE {B Din : ℕ} (v : Fin B × Fin Din) : TExpr B Din → Bool
  | .var j k => decide ((j, k) = v)
  | .cst _ => false
  | .add a b => depE v a || depE v b
  | .mul a b => depE v a || depE v b
  | .emax a b => depE v a || depE v b
  | .maskGE _ _ => false
  | .maskLT _ _ => false

/-- Modelled from the spec: backprop reachability of the whole batch
placeholder (any entry) from a node. -/
def hasDiffPath {B Din : ℕ} : TExpr B Din → Bool
  | .var _ _ => true
  | .cst _ => false
  | .add a b => hasDiffPath a || hasDiffPath b
  | .mul a b => hasDiffPath a || hasDiffPath b
  | .emax a b => hasDiffPath a || hasDiffPath b
  | .maskGE _ _ => false
  | .maskLT _ _ => false

/-- Modelled from the spec: the gradient graph `tf.gradients` builds for the
derivative of a node with respect to placeholder entry `v`.  Backprop
accumulates path products toward occurrences of `v` only (branches with no
path are not built), `Mul` contributes the other factor, and `Maximum`
contributes its `x ≥ y` / `x < y` masks. -/
def gradE {B Din : ℕ} (v : Fin B × Fin Din) : TExpr B Din → TExpr B Din
  | .var j k => .cst (if (j, k) = v then 1 else 0)
  | .cst _ => .cst 0
  | .add a b => .add (gradE v a) (gradE v b)
  | .mul a b =>
      if depE v a then
        if depE v b then .add (.mul (gradE v a) b) (.mul a (gradE v b))
        else .mul (gradE v a) b
      else
        if depE v b then .mul a (gradE v b) else .cst 0
  | .emax a b =>
      if depE v a || depE v b then
        .add (.mul (.maskGE a b) (gradE v a)) (.mul (.maskLT a b) (gradE v b))
      else .cst 0
  | .maskGE _ _ => .cst 0
  | .maskLT _ _ => .cst 0

/-- Modelled from the spec: `tf.gradients(e, batch)[0]` — `none` when no
differentiable path from `e` to the batch placeholder exists, otherwise the
per-entry gradient graph. -/
def tf_gradients {B Din : ℕ} (e : TExpr B Din) :
    Option (Fin B → Fin Din → TExpr B Din) :=
  if hasDiffPath e then some (fun j k => gradE (j, k) e) else none

/-- `Network._grad_zero` (lines 747-754): a gradient that autodiff reports as
absent (`None`) is replaced by an explicit all-zeros tensor. -/
def grad_zero {B Din : ℕ} (e : TExpr B Din) : Fin B → Fin Din → TExpr B Din :=
  match tf_gradients e with
  | some g => g
  | none => fun _ _ => .cst 0

/-- Graph-level sum of a list of nodes (`tf.reduce_sum` over an axis). -/
def sumE {B Din : ℕ} : List (TExpr B Din) → TExpr B Din
  | [] => .cst 0
  | e :: r => .add e (sumE r)

/-- `SumOutputNet.sum_output` (lines 537-545): output `o` of the network
summed over the input batch, as a graph node. -/
def sum_output {B Din dOut : ℕ} (fwd : Fin B → Fin dOut → TExpr B Din)
    (o : Fin dOut) : TExpr B Din :=
  sumE ((List.finRange B).map fun j => fwd j o)

/-- The first-derivative node of `get_sec_data`/`get_grad_data` (line 707):
`tf.gradients(sum_output[o], batch)`, of shape `(ndim_out, B) + (Din,)`. -/
def grad_node {B Din dOut : ℕ} (fwd : Fin B → Fin dOut → TExpr B Din)
    (o : Fin dOut) (j : Fin B) (k : Fin Din) : TExpr B Din :=
  gradE (j, k) (sum_output fwd o)

/-- `g_flat` of `get_sec_data` (lines 711-712): the first derivative summed
again over the batch, flattened over the input coordinates. -/
def g_flat {B Din dOut : ℕ} (fwd : Fin B → Fin dOut → TExpr B Din)
    (o : Fin dOut) (i : Fin Din) : TExpr B Din :=
  sumE ((List.finRange B).map fun j => grad_node fwd o j i)

/-- The second-derivative tensor returned by `Network.get_sec_data`
(lines 699-745): differentiate each `g_flat[o, i]` once more through
`_grad_zero` and gather, for batch element `j`, the diagonal entry `(j, i)` —
shape `(ndim_out, B) + (Din,)`. -/
def get_sec_data_sec {B Din dOut : ℕ} (fwd : Fin B → Fin dOut → TExpr B Din)
    (env : Fin B → Fin Din → ℚ) (o : Fin dOut) (j : Fin B) (i : Fin Din) : ℚ :=
  teval env (grad_zero (g_flat fwd o i) j i)

/-- The evaluated first-derivative tensor returned by `Network.get_sec_data`
(and `Network.get_grad_data`, lines 677-697). -/
def get_sec_data_grad {B Din dOut : ℕ} (fwd : Fin B → Fin dOut → TExpr B Din)
    (env : Fin B → Fin Din → ℚ) (o : Fin dOut) (j : Fin B) (k : Fin Din) : ℚ :=
  teval env (grad_node fwd o j k)

/-- The evaluated network output returned alongside the derivatives
(`son.output`). -/
def get_sec_data_out {B Din dOut : ℕ} (fwd : Fin B → Fin dOut → TExpr B Din)
    (env : Fin B → Fin Din → ℚ) (j : Fin B) (o : Fin dOut) : ℚ :=
  teval env (fwd j o)

/-! ### LinearNetwork and LinearReLUNetwork forward maps -/

/-- `LinearNetwork.forward_tensor` (lines 796-810) as a graph over the batch
placeholder: `out[j, o] = Σ_k batch[j, k] * W[o, k] + b[o]`. -/
def linFwdE {B Din dOut : ℕ} (W : Fin dOut → Fin Din → ℚ) (b : Fin dOut → ℚ)
    (j : Fin B) (o : Fin dOut) : TExpr B Din :=
  .add (sumE ((List.finRange Din).map fun k => .mul (.var j k) (.cst (W o k))))
    (.cst (b o))

/-- `LinearNetwork.forward_tensor`, numerically. -/
def linForward {B Din dOut : ℕ} (W : Fin dOut → Fin Din → ℚ) (b : Fin dOut → ℚ)
    (x : Fin B → Fin Din → ℚ) (j : Fin B) (o : Fin dOut) : ℚ :=
  (∑ k, x j k * W o k) + b o

/-- `LinearReLUNetwork.forward_tensor` (lines 912-926) as a graph:
`out = maximum(z * lin_grads[1], z * lin_grads[0])` with `z` the affine
pre-activation. -/
def reluFwdE {B Din dOut : ℕ} (W : Fin dOut → Fin Din → ℚ) (b : Fin dOut → ℚ)
    (g0 g1 : ℚ) (j : Fin B) (o : Fin dOut) : TExpr B Din :=
  .emax (.mul (linFwdE W b j o) (.cst g1)) (.mul (linFwdE W b j o) (.cst g0))

/-- `LinearReLUNetwork.forward_tensor`, numerically. -/
def reluForward {B Din dOut : ℕ} (W : Fin dOut → Fin Din → ℚ) (b : Fin dOut → ℚ)
    (g0 g1 : ℚ) (x : Fin B → Fin Din → ℚ) (j : Fin B) (o : Fin dOut) : ℚ :=
  max (linForward W b x j o * g1) (linForward W b x j o * g0)

/-- `LinearNetwork.get_grad_data` (lines 812-823): the analytic Jacobian, the
weight matrix tiled over the batch and transposed to `(ndim_out, B, Din)`. -/
def lin_get_grad_data {B Din dOut : ℕ} (W : Fin dOut → Fin Din → ℚ)
    (o : Fin dOut) (_j : Fin B) (k : Fin Din) : ℚ :=
  W o k

/-- `LinearReLUNetwork.get_grad_data`/`get_grad_input` (lines 928-947): the
weight matrix gated by `lin_grads[1] * cast(out > 0) + lin_grads[0] *
cast(out <= 0)`, transposed to `(ndim_out, B, Din)`. -/
def relu_get_grad_data {B Din dOut : ℕ} (W : Fin dOut → Fin Din → ℚ)
    (b : Fin dOut → ℚ) (g0 g1 : ℚ) (x : Fin B → Fin Din → ℚ)
    (o : Fin dOut) (j : Fin B) (k : Fin Din) : ℚ :=
  (g1 * (if 0 < reluForward W b g0 g1 x j o then 1 else 0) +
      g0 * (if reluForward W b g0 g1 x j o ≤ 0 then 1 else 0)) * W o k

/-! ### Structural lemmas about the autodiff model -/

lemma teval_sumE {B Din : ℕ} (env : Fin B → Fin Din → ℚ)
    (l : List (TExpr B Din)) : teval env (sumE l) = (l.map (teval env)).sum := by
  induction l with
  | nil => simp [sumE, teval]
  | cons e r ih => simp [sumE, teval, ih]

lemma gradE_sumE {B Din : ℕ} (v : Fin B × Fin Din) (l : List (TExpr B Din)) :
    gradE v (sumE l) = sumE (l.map (gradE v)) := by
  induction l with
  | nil => simp [sumE, gradE]
  | cons e r ih => simp [sumE, gradE, ih]

lemma hasDiffPath_sumE {B Din : ℕ} (l : List (TExpr B Din)) :
    hasDiffPath (sumE l) = l.any hasDiffPath := by
  induction l with
  | nil => simp [sumE, hasDiffPath]
  | cons e r ih => simp [sumE, hasDiffPath, ih]

lemma depE_sumE {B Din : ℕ} (v : Fin B × Fin Din) (l : List (TExpr B Din)) :
    depE v (sumE l) = l.any (depE v) := by
  induction l with
  | nil => simp [sumE, depE]
  | cons e r ih => simp [sumE, depE, ih]

/-! ### Autodiff facts about the linear and ReLU forward graphs -/

lemma gradE_mul_cst {B Din : ℕ} (v : Fin B × Fin Din) (a : TExpr B Din) (c : ℚ) :
    gradE v (.mul a (.cst c)) =
      if depE v a then .mul (gradE v a) (.cst c) else .cst 0 := by
  simp [gradE, depE]

lemma gradE_emax_def {B Din : ℕ} (v : Fin B × Fin Din) (a b : TExpr B Din) :
    gradE v (.emax a b) =
      if depE v a || depE v b then
        .add (.mul (.maskGE a b) (gradE v a)) (.mul (.maskLT a b) (gradE v b))
      else .cst 0 :=
  rfl

lemma depE_mul_cst {B Din : ℕ} (v : Fin B × Fin Din) (a : TExpr B Din) (c : ℚ) :
    depE v (.mul a (.cst c)) = depE v a := by
  simp [depE]

lemma teval_linFwdE {B Din dOut : ℕ} (env : Fin B → Fin Din → ℚ)
    (W : Fin dOut → Fin Din → ℚ) (b : Fin dOut → ℚ) (j : Fin B) (o : Fin dOut) :
    teval env (linFwdE W b j o) = linForward W b env j o := by
  simp [linFwdE, linForward, teval, teval_sumE, List.map_map, Function.comp_def,
    Fin.sum_univ_def]

lemma depE_linFwdE {B Din dOut : ℕ} (W : Fin dOut → Fin Din → ℚ)
    (b : Fin dOut → ℚ) (j2 j : Fin B) (o : Fin dOut) (k : Fin Din) :
    depE (j, k) (linFwdE W b j2 o) = decide (j2 = j) := by
  rcases eq_or_ne j2 j with h | h
  · subst h
    simp [linFwdE, depE, depE_sumE, List.any_eq_true, Prod.ext_iff]
  · simp [linFwdE, depE, depE_sumE, List.any_eq_true, Prod.ext_iff, h]

lemma hasDiffPath_add {B Din : ℕ} (a b : TExpr B Din) :
    hasDiffPath (.add a b) = (hasDiffPath a || hasDiffPath b) := rfl

lemma hasDiffPath_mul {B Din : ℕ} (a b : TExpr B Din) :
    hasDiffPath (.mul a b) = (hasDiffPath a || hasDiffPath b) := rfl

lemma hasDiffPath_cst {B Din : ℕ} (c : ℚ) :
    hasDiffPath (TExpr.cst c : TExpr B Din) = false := rfl

lemma hasDiffPath_maskGE {B Din : ℕ} (a b : TExpr B Din) :
    hasDiffPath (.maskGE a b) = false := rfl

lemma hasDiffPath_maskLT {B Din : ℕ} (a b : TExpr B Din) :
    hasDiffPath (.maskLT a b) = false := rfl

lemma teval_add {B Din : ℕ} (env : Fin B → Fin Din → ℚ) (a b : TExpr B Din) :
    teval env (.add a b) = teval env a + teval env b := rfl

lemma teval_mul {B Din : ℕ} (env : Fin B → Fin Din → ℚ) (a b : TExpr B Din) :
    teval env (.mul a b) = teval env a * teval env b := rfl

lemma teval_cst {B Din : ℕ} (env : Fin B → Fin Din → ℚ) (c : ℚ) :
    teval env (TExpr.cst c : TExpr B Din) = c := rfl

lemma teval_emax {B Din : ℕ} (env : Fin B → Fin Din → ℚ) (a b : TExpr B Din) :
    teval env (.emax a b) = max (teval env a) (teval env b) := rfl

lemma teval_maskGE {B Din : ℕ} (env : Fin B → Fin Din → ℚ) (a b : TExpr B Din) :
    teval env (.maskGE a b) = if teval env b ≤ teval env a then 1 else 0 := rfl

lemma teval_maskLT {B Din : ℕ} (env : Fin B → Fin Din → ℚ) (a b : TExpr B Din) :
    teval env (.maskLT a b) = if teval env a < teval env b then 1 else 0 := rfl

lemma teval_gradE_mul_var_cst {B Din : ℕ} (env : Fin B → Fin Din → ℚ)
    (j2 : Fin B) (k2 : Fin Din) (w : ℚ) (j : Fin B) (k : Fin Din) :
    teval env (gradE (j, k) (.mul (.var j2 k2) (.cst w))) =
      if (j2, k2) = (j, k) then w else 0 := by
  by_cases h : (j2, k2) = (j, k)
  · simp [gradE, depE, teval, h]
  · simp [gradE, depE, teval, h]

lemma teval_gradE_linFwdE {B Din dOut : ℕ} (env : Fin B → Fin Din → ℚ)
    (W : Fin dOut → Fin Din → ℚ) (b : Fin dOut → ℚ) (j2 : Fin B) (o : Fin dOut)
    (j : Fin B) (k : Fin Din) :
    teval env (gradE (j, k) (linFwdE W b j2 o)) = if j2 = j then W o k else 0 := by
  have hmain : teval env (gradE (j, k) (linFwdE W b j2 o)) =
      ∑ k2, (if (j2, k2) = (j, k) then W o k2 else 0) := by
    simp [linFwdE, gradE, gradE_sumE, depE, teval, teval_sumE, List.map_map,
      Function.comp_def, Fin.sum_univ_def, Prod.ext_iff, decide_eq_true_eq,
      apply_ite (teval env)]
    refine congrArg List.sum (List.map_congr_left ?_)
    intro x _
    by_cases hx : j2 = j ∧ x = k <;> simp [hx]
  rw [hmain]
  rcases eq_or_ne j2 j with h | h
  · subst h
    simp [Prod.ext_iff]
  · simp [Prod.ext_iff, h]

lemma hasDiffPath_gradE_mul_var_cst {B Din : ℕ} (j2 : Fin B) (k2 : Fin Din)
    (w : ℚ) (j : Fin B) (k : Fin Din) :
    hasDiffPath (gradE (j, k) (TExpr.mul (.var j2 k2) (.cst w))) = false := by
  by_cases h : (j2, k2) = (j, k)
  · simp [gradE, depE, hasDiffPath, h]
  · simp [gradE, depE, hasDiffPath, h]

lemma hasDiffPath_gradE_linFwdE {B Din dOut : ℕ} (W : Fin dOut → Fin Din → ℚ)
    (b : Fin dOut → ℚ) (j2 : Fin B) (o : Fin dOut) (j : Fin B) (k : Fin Din) :
    hasDiffPath (gradE (j, k) (linFwdE W b j2 o)) = false := by
  simp only [linFwdE, gradE, gradE_sumE, hasDiffPath, hasDiffPath_sumE,
    List.map_map, Bool.or_false]
  rw [List.any_eq_false]
  intro e he
  rw [List.mem_map] at he
  obtain ⟨k2, _, rfl⟩ := he
  simp [Function.comp, hasDiffPath_gradE_mul_var_cst]

lemma hasDiffPath_gradE_mul_linFwdE_cst {B Din dOut : ℕ}
    (W : Fin dOut → Fin Din → ℚ) (b : Fin dOut → ℚ) (g : ℚ) (j2 : Fin B)
    (o : Fin dOut) (j : Fin B) (k : Fin Din) :
    hasDiffPath (gradE (j, k) (TExpr.mul (linFwdE W b j2 o) (.cst g))) = false := by
  rw [gradE_mul_cst]
  by_cases h : depE (j, k) (linFwdE W b j2 o) = true
  · rw [if_pos h, hasDiffPath_mul, hasDiffPath_gradE_linFwdE, hasDiffPath_cst]
    rfl
  · rw [if_neg h, hasDiffPath_cst]

lemma hasDiffPath_gradE_reluFwdE {B Din dOut : ℕ} (W : Fin dOut → Fin Din → ℚ)
    (b : Fin dOut → ℚ) (g0 g1 : ℚ) (j2 : Fin B) (o : Fin dOut) (j : Fin B)
    (k : Fin Din) :
    hasDiffPath (gradE (j, k) (reluFwdE W b g0 g1 j2 o)) = false := by
  unfold reluFwdE
  rw [gradE_emax_def]
  by_cases h : (depE (j, k) (TExpr.mul (linFwdE W b j2 o) (.cst g1)) ||
      depE (j, k) (TExpr.mul (linFwdE W b j2 o) (.cst g0))) = true
  · rw [if_pos h, hasDiffPath_add, hasDiffPath_mul, hasDiffPath_mul,
      hasDiffPath_maskGE, hasDiffPath_maskLT,
      hasDiffPath_gradE_mul_linFwdE_cst, hasDiffPath_gradE_mul_linFwdE_cst]
    rfl
  · rw [if_neg h]
    rfl

lemma teval_gradE_reluFwdE {B Din dOut : ℕ} (env : Fin B → Fin Din → ℚ)
    (W : Fin dOut → Fin Din → ℚ) (b : Fin dOut → ℚ) (g0 g1 : ℚ) (j2 : Fin B)
    (o : Fin dOut) (j : Fin B) (k : Fin Din) :
    teval env (gradE (j, k) (reluFwdE W b g0 g1 j2 o)) =
      if j2 = j then
        (if linForward W b env j2 o * g0 ≤ linForward W b env j2 o * g1
          then g1 else g0) * W o k
      else 0 := by
  unfold reluFwdE
  rw [gradE_emax_def, depE_mul_cst, depE_mul_cst, depE_linFwdE]
  rcases eq_or_ne j2 j with h | h
  · subst h
    rw [if_pos (by simp), if_pos rfl, gradE_mul_cst, gradE_mul_cst,
      depE_linFwdE, if_pos (by simp), if_pos (by simp)]
    simp only [teval_add, teval_mul, teval_cst, teval_maskGE, teval_maskLT,
      teval_linFwdE, teval_gradE_linFwdE, if_pos rfl]
    by_cases hc : linForward W b env j2 o * g0 ≤ linForward W b env j2 o * g1
    · rw [if_pos hc, if_pos hc, if_neg (not_lt.mpr hc)]
      rw [if_pos trivial]
      ring
    · rw [if_neg hc, if_neg hc, if_pos (lt_of_not_ge hc)]
      rw [if_pos trivial]
      ring
  · rw [if_neg (by simp [h]), if_neg h]
    rfl

lemma lin_grad_data_eval {B Din dOut : ℕ} (env : Fin B → Fin Din → ℚ)
    (W : Fin dOut → Fin Din → ℚ) (b : Fin dOut → ℚ) (o : Fin dOut) (j : Fin B)
    (k : Fin Din) :
    get_sec_data_grad (linFwdE W b) env o j k = lin_get_grad_data W o j k := by
  unfold get_sec_data_grad grad_node sum_output lin_get_grad_data
  simp only [gradE_sumE, teval_sumE, List.map_map, Function.comp_def,
    teval_gradE_linFwdE]
  rw [← Fin.sum_univ_def]
  simp

lemma relu_grad_data_eval {B Din dOut : ℕ} (env : Fin B → Fin Din → ℚ)
    (W : Fin dOut → Fin Din → ℚ) (b : Fin dOut → ℚ) (g0 g1 : ℚ) (o : Fin dOut)
    (j : Fin B) (k : Fin Din) :
    get_sec_data_grad (reluFwdE W b g0 g1) env o j k =
      (if linForward W b env j o * g0 ≤ linForward W b env j o * g1
        then g1 else g0) * W o k := by
  unfold get_sec_data_grad grad_node sum_output
  simp only [gradE_sumE, teval_sumE, List.map_map, Function.comp_def,
    teval_gradE_reluFwdE]
  rw [← Fin.sum_univ_def]
  simp

lemma lin_out_eval {B Din dOut : ℕ} (env : Fin B → Fin Din → ℚ)
    (W : Fin dOut → Fin Din → ℚ) (b : Fin dOut → ℚ) (j : Fin B) (o : Fin dOut) :
    get_sec_data_out (linFwdE W b) env j o = linForward W b env j o :=
  teval_linFwdE env W b j o

lemma relu_out_eval {B Din dOut : ℕ} (env : Fin B → Fin Din → ℚ)
    (W : Fin dOut → Fin Din → ℚ) (b : Fin dOut → ℚ) (g0 g1 : ℚ) (j : Fin B)
    (o : Fin dOut) :
    get_sec_data_out (reluFwdE W b g0 g1) env j o =
      reluForward W b g0 g1 env j o := by
  unfold get_sec_data_out reluFwdE reluForward
  simp only [teval_emax, teval_mul, teval_cst, teval_linFwdE]

lemma hasDiffPath_g_flat {B Din dOut : ℕ}
    (fwd : Fin B → Fin dOut → TExpr B Din) (o : Fin dOut) (i : Fin Din)
    (hfwd : ∀ (v : Fin B × Fin Din) (j2 : Fin B),
      hasDiffPath (gradE v (fwd j2 o)) = false) :
    hasDiffPath (g_flat fwd o i) = false := by
  unfold g_flat grad_node sum_output
  rw [hasDiffPath_sumE, List.any_eq_false]
  intro e he
  simp only [List.mem_map, List.mem_finRange, true_and] at he
  obtain ⟨j2, rfl⟩ := he
  simp only [gradE_sumE, hasDiffPath_sumE, List.map_map]
  rw [Bool.not_eq_true, List.any_eq_false]
  intro e2 he2
  simp only [List.mem_map, List.mem_finRange, true_and] at he2
  obtain ⟨j3, rfl⟩ := he2
  simp only [Function.comp_def, Bool.not_eq_true]
  exact hfwd (j2, i) j3

lemma tf_gradients_g_flat_none {B Din dOut : ℕ}
    (fwd : Fin B → Fin dOut → TExpr B Din) (o : Fin dOut) (i : Fin Din)
    (hfwd : ∀ (v : Fin B × Fin Din) (j2 : Fin B),
      hasDiffPath (gradE v (fwd j2 o)) = false) :
    tf_gradients (g_flat fwd o i) = none := by
  unfold tf_gradients
  rw [hasDiffPath_g_flat fwd o i hfwd]
  rfl

lemma get_sec_data_sec_zero {B Din dOut : ℕ}
    (fwd : Fin B → Fin dOut → TExpr B Din) (env : Fin B → Fin Din → ℚ)
    (o : Fin dOut) (j : Fin B) (i : Fin Din)
    (hfwd : ∀ (v : Fin B × Fin Din) (j2 : Fin B),
      hasDiffPath (gradE v (fwd j2 o)) = false) :
    get_sec_data_sec fwd env o j i = 0 := by
  unfold get_sec_data_sec grad_zero
  rw [tf_gradients_g_flat_none fwd o i hfwd]
  rfl

lemma lin_hfwd {B Din dOut : ℕ} (W : Fin dOut → Fin Din → ℚ)
    (b : Fin dOut → ℚ) (o : Fin dOut) :
    ∀ (v : Fin B × Fin Din) (j2 : Fin B),
      hasDiffPath (gradE v (linFwdE W b j2 o)) = false := by
  rintro ⟨j, k⟩ j2
  exact hasDiffPath_gradE_linFwdE W b j2 o j k

lemma relu_hfwd {B Din dOut : ℕ} (W : Fin dOut → Fin Din → ℚ)
    (b : Fin dOut → ℚ) (g0 g1 : ℚ) (o : Fin dOut) :
    ∀ (v : Fin B × Fin Din) (j2 : Fin B),
      hasDiffPath (gradE v (reluFwdE W b g0 g1 j2 o)) = false := by
  rintro ⟨j, k⟩ j2
  exact hasDiffPath_gradE_reluFwdE W b g0 g1 j2 o j k

/-- Claim C4: `Network.get_sec_data` applied to a `LinearNetwork` produces the
all-zero second-derivative tensor of shape `(ndim_out, batch_size) + ndim_in`,
and the second `tf.gradients` pass reports every gradient as absent (`None`),
which `_grad_zero` replaces by explicit zeros instead of failing. -/
theorem claim_C4 {B Din dOut : ℕ} (W : Fin dOut → Fin Din → ℚ)
    (b : Fin dOut → ℚ) (env : Fin B → Fin Din → ℚ) :
    (∀ (o : Fin dOut) (j : Fin B) (i : Fin Din),
        get_sec_data_sec (linFwdE W b) env o j i = 0) ∧
      (∀ (o : Fin dOut) (i : Fin Din),
        tf_gradients (g_flat (linFwdE (B := B) W b) o i) = none) :=
  ⟨fun o j i => get_sec_data_sec_zero _ env o j i (lin_hfwd W b o),
    fun o i => tf_gradients_g_flat_none _ o i (lin_hfwd W b o)⟩

/-! ## `KernelNetModel.score` / `linear_score` (lines 112-158) -/

/-- `Network.get_param_size` (lines 756-761) for the one-layer networks:
`Σ ||W||^2 + Σ ||b||^2`. -/
def param_size {Din dOut : ℕ} (W : Fin dOut → Fin Din → ℚ) (b : Fin dOut → ℚ) : ℚ :=
  (∑ o, ∑ k, W o k ^ 2) + ∑ o, b o ^ 2

/-- `KernelNetModel.score(lam)` (lines 112-133) as a function of the processed
basis features `X`, the network output `y`, and the network derivative tensors
`dydx`, `d2ydx2` delivered by `get_sec_data`: builds `dfdy`/`d2fdy2` through
`get_kernel_fun_grad_hess` (lines 97-106), contracts them with the network
Jacobian (and Hessian) per the einsums of lines 123-129, and sums. -/
def kernel_model_score {M B dk Din : ℕ} (alpha : Fin M → ℚ) (gexp : ℚ → ℚ)
    (sigma lam psize : ℚ) (X : Fin M → Fin dk → ℚ) (y : Fin B → Fin dk → ℚ)
    (dydx d2ydx2 : Fin dk → Fin B → Fin Din → ℚ) : ℚ :=
  let K := get_grad_hess gexp sigma X y
  let dfdy := fun (j : Fin B) (k : Fin dk) => ∑ m2, alpha m2 * K.1 m2 j k
  let d2fdy2 := fun (j : Fin B) (k l : Fin dk) => ∑ m2, alpha m2 * K.2 m2 j k l
  let dfdx := fun (j : Fin B) (s : Fin Din) => ∑ k, dfdy j k * dydx k j s
  let d2fdx2 := fun (j : Fin B) (s : Fin Din) =>
    (∑ k, ∑ l, d2fdy2 j k l * dydx k j s * dydx l j s) +
      ∑ k, dfdy j k * d2ydx2 k j s
  (∑ j, ∑ s, (d2fdx2 j s + 0.5 * dfdx j s ^ 2)) + lam * psize

/-- `KernelNetModel.linear_score(lam)` (lines 136-158): the fast path that
omits the network-Hessian term, consuming `get_grad_data`'s Jacobian. -/
def kernel_model_linear_score {M B dk Din : ℕ} (alpha : Fin M → ℚ)
    (gexp : ℚ → ℚ) (sigma lam psize : ℚ) (X : Fin M → Fin dk → ℚ)
    (y : Fin B → Fin dk → ℚ) (dydx : Fin dk → Fin B → Fin Din → ℚ) : ℚ :=
  let K := get_grad_hess gexp sigma X y
  let dfdy := fun (j : Fin B) (k : Fin dk) => ∑ m2, alpha m2 * K.1 m2 j k
  let d2fdy2 := fun (j : Fin B) (k l : Fin dk) => ∑ m2, alpha m2 * K.2 m2 j k l
  let dfdx := fun (j : Fin B) (s : Fin Din) => ∑ k, dfdy j k * dydx k j s
  let d2fdx2 := fun (j : Fin B) (s : Fin Din) =>
    ∑ k, ∑ l, d2fdy2 j k l * dydx k j s * dydx l j s
  (∑ j, ∑ s, (d2fdx2 j s + 0.5 * dfdx j s ^ 2)) + lam * psize

/-- `score(lam)` instantiated on a `LinearNetwork`: `X` is the forward image of
the basis points (`_process_data`, line 116), and `y`/`dydx`/`d2ydx2` come from
`get_sec_data` on the linear forward graph. -/
def score_LinearNetwork {M B Din dOut : ℕ} (W : Fin dOut → Fin Din → ℚ)
    (b : Fin dOut → ℚ) (pointsEnv : Fin M → Fin Din → ℚ)
    (dataEnv : Fin B → Fin Din → ℚ) (alpha : Fin M → ℚ) (gexp : ℚ → ℚ)
    (sigma lam : ℚ) : ℚ :=
  kernel_model_score alpha gexp sigma lam (param_size W b)
    (linForward W b pointsEnv) (get_sec_data_out (linFwdE W b) dataEnv)
    (get_sec_data_grad (linFwdE W b) dataEnv)
    (get_sec_data_sec (linFwdE W b) dataEnv)

/-- `linear_score(lam)` instantiated on a `LinearNetwork`: `X` from
`set_points` (line 144), `y`/`dydx` from the analytic `get_grad_data`
(lines 812-823). -/
def linear_score_LinearNetwork {M B Din dOut : ℕ} (W : Fin dOut → Fin Din → ℚ)
    (b : Fin dOut → ℚ) (pointsEnv : Fin M → Fin Din → ℚ)
    (dataEnv : Fin B → Fin Din → ℚ) (alpha : Fin M → ℚ) (gexp : ℚ → ℚ)
    (sigma lam : ℚ) : ℚ :=
  kernel_model_linear_score alpha gexp sigma lam (param_size W b)
    (linForward W b pointsEnv) (linForward W b dataEnv)
    (lin_get_grad_data W)

/-- `score(lam)` instantiated on a `LinearReLUNetwork` via `get_sec_data`. -/
def score_LinearReLUNetwork {M B Din dOut : ℕ} (W : Fin dOut → Fin Din → ℚ)
    (b : Fin dOut → ℚ) (g0 g1 : ℚ) (pointsEnv : Fin M → Fin Din → ℚ)
    (dataEnv : Fin B → Fin Din → ℚ) (alpha : Fin M → ℚ) (gexp : ℚ → ℚ)
    (sigma lam : ℚ) : ℚ :=
  kernel_model_score alpha gexp sigma lam (param_size W b)
    (reluForward W b g0 g1 pointsEnv)
    (get_sec_data_out (reluFwdE W b g0 g1) dataEnv)
    (get_sec_data_grad (reluFwdE W b g0 g1) dataEnv)
    (get_sec_data_sec (reluFwdE W b g0 g1) dataEnv)

/-- `linear_score(lam)` instantiated on a `LinearReLUNetwork` via its analytic
`get_grad_data` (lines 928-947). -/
def linear_score_LinearReLUNetwork {M B Din dOut : ℕ}
    (W : Fin dOut → Fin Din → ℚ) (b : Fin dOut → ℚ) (g0 g1 : ℚ)
    (pointsEnv : Fin M → Fin Din → ℚ) (dataEnv : Fin B → Fin Din → ℚ)
    (alpha : Fin M → ℚ) (gexp : ℚ → ℚ) (sigma lam : ℚ) : ℚ :=
  kernel_model_linear_score alpha gexp sigma lam (param_size W b)
    (reluForward W b g0 g1 pointsEnv) (reluForward W b g0 g1 dataEnv)
    (relu_get_grad_data W b g0 g1 dataEnv)

lemma kernel_model_score_eq_linear {M B dk Din : ℕ} (alpha : Fin M → ℚ)
    (gexp : ℚ → ℚ) (sigma lam psize : ℚ) (X : Fin M → Fin dk → ℚ)
    (y : Fin B → Fin dk → ℚ) (dydx d2ydx2 : Fin dk → Fin B → Fin Din → ℚ)
    (h2 : ∀ k j s, d2ydx2 k j s = 0) :
    kernel_model_score alpha gexp sigma lam psize X y dydx d2ydx2 =
      kernel_model_linear_score alpha gexp sigma lam psize X y dydx := by
  unfold kernel_model_score kernel_model_linear_score
  simp only [h2, mul_zero, Finset.sum_const_zero, add_zero]

/-- Claim C1 (amended): `score(lam)` and `linear_score(lam)` build equal
objectives for a `LinearNetwork` unconditionally; for a `LinearReLUNetwork`
they agree whenever the autodiff Jacobian of `get_sec_data` coincides with the
analytic `get_grad_data` Jacobian, which with the default
`lin_grads = [0, 1]` holds at every input whose pre-activations are all
nonzero (at a zero pre-activation the two paths pick different activation
slopes and the objectives can differ, see the counterexample). -/
theorem claim_C1 {M B Din dOut : ℕ} (W : Fin dOut → Fin Din → ℚ)
    (b : Fin dOut → ℚ) (g0 g1 : ℚ) (pointsEnv : Fin M → Fin Din → ℚ)
    (dataEnv : Fin B → Fin Din → ℚ) (alpha : Fin M → ℚ) (gexp : ℚ → ℚ)
    (sigma lam : ℚ) :
    (score_LinearNetwork W b pointsEnv dataEnv alpha gexp sigma lam =
        linear_score_LinearNetwork W b pointsEnv dataEnv alpha gexp sigma lam) ∧
      ((∀ o j k, get_sec_data_grad (reluFwdE W b g0 g1) dataEnv o j k =
            relu_get_grad_data W b g0 g1 dataEnv o j k) →
        score_LinearReLUNetwork W b g0 g1 pointsEnv dataEnv alpha gexp sigma lam =
          linear_score_LinearReLUNetwork W b g0 g1 pointsEnv dataEnv alpha gexp
            sigma lam) ∧
      (g0 = 0 → g1 = 1 → (∀ j o, linForward W b dataEnv j o ≠ 0) →
        ∀ o j k, get_sec_data_grad (reluFwdE W b g0 g1) dataEnv o j k =
          relu_get_grad_data W b g0 g1 dataEnv o j k) := by
  refine ⟨?_, ?_, ?_⟩
  · unfold score_LinearNetwork linear_score_LinearNetwork
    have hy : get_sec_data_out (linFwdE (B := B) W b) dataEnv =
        linForward W b dataEnv :=
      funext fun j => funext fun o => lin_out_eval dataEnv W b j o
    have hg : get_sec_data_grad (linFwdE (B := B) W b) dataEnv =
        lin_get_grad_data W :=
      funext fun o => funext fun j => funext fun k =>
        lin_grad_data_eval dataEnv W b o j k
    rw [hy, hg]
    exact kernel_model_score_eq_linear _ _ _ _ _ _ _ _ _
      (fun k j s => get_sec_data_sec_zero _ dataEnv k j s (lin_hfwd W b k))
  · intro hgr
    unfold score_LinearReLUNetwork linear_score_LinearReLUNetwork
    have hy : get_sec_data_out (reluFwdE W b g0 g1) dataEnv =
        reluForward W b g0 g1 dataEnv :=
      funext fun j => funext fun o => relu_out_eval dataEnv W b g0 g1 j o
    have hg : get_sec_data_grad (reluFwdE W b g0 g1) dataEnv =
        relu_get_grad_data W b g0 g1 dataEnv :=
      funext fun o => funext fun j => funext fun k => hgr o j k
    rw [hy, hg]
    exact kernel_model_score_eq_linear _ _ _ _ _ _ _ _ _
      (fun k j s => get_sec_data_sec_zero _ dataEnv k j s (relu_hfwd W b g0 g1 k))
  · intro hg0 hg1 hnz o j k
    subst hg0
    subst hg1
    rw [relu_grad_data_eval]
    unfold relu_get_grad_data reluForward
    rcases (hnz j o).lt_or_lt with hz | hz
    · simp [mul_zero, mul_one, not_le.mpr hz, max_eq_right hz.le,
        not_lt.mpr hz.le]
    · simp [mul_zero, mul_one, hz.le, max_eq_left hz.le, hz,
        not_le.mpr hz]

/-- Counterexample for C1 as frozen: a `LinearReLUNetwork` (default
`lin_grads = [0, 1]`) at a data point with pre-activation exactly zero —
`score` uses slope `1` (TensorFlow's `Maximum` gradient routes ties to its
first argument) while `linear_score`'s analytic gate picks `lin_grads[0] = 0`,
and the two objectives differ. -/
theorem claim_C1_counterexample :
    score_LinearReLUNetwork (fun (_ : Fin 1) (_ : Fin 1) => (1 : ℚ))
        (fun _ => 0) 0 1 (fun (_ : Fin 1) (_ : Fin 1) => (1 : ℚ))
        (fun (_ : Fin 1) (_ : Fin 1) => (0 : ℚ)) (fun _ => 1) id 1 0 ≠
      linear_score_LinearReLUNetwork (fun (_ : Fin 1) (_ : Fin 1) => (1 : ℚ))
        (fun _ => 0) 0 1 (fun (_ : Fin 1) (_ : Fin 1) => (1 : ℚ))
        (fun (_ : Fin 1) (_ : Fin 1) => (0 : ℚ)) (fun _ => 1) id 1 0 := by
  have hsec : get_sec_data_sec
      (reluFwdE (fun (_ : Fin 1) (_ : Fin 1) => (1 : ℚ)) (fun _ => 0) 0 1)
      (fun (_ : Fin 1) (_ : Fin 1) => (0 : ℚ)) =
      fun (_ : Fin 1) (_ : Fin 1) (_ : Fin 1) => (0 : ℚ) :=
    funext fun o => funext fun j => funext fun i =>
      get_sec_data_sec_zero _ _ o j i (relu_hfwd _ _ 0 1 o)
  have hgrad : get_sec_data_grad
      (reluFwdE (fun (_ : Fin 1) (_ : Fin 1) => (1 : ℚ)) (fun _ => 0) 0 1)
      (fun (_ : Fin 1) (_ : Fin 1) => (0 : ℚ)) =
      fun (_ : Fin 1) (_ : Fin 1) (_ : Fin 1) => (1 : ℚ) := by
    funext o j k
    rw [relu_grad_data_eval]
    norm_num [linForward]
  have hout : get_sec_data_out
      (reluFwdE (fun (_ : Fin 1) (_ : Fin 1) => (1 : ℚ)) (fun _ => 0) 0 1)
      (fun (_ : Fin 1) (_ : Fin 1) => (0 : ℚ)) =
      fun (_ : Fin 1) (_ : Fin 1) => (0 : ℚ) := by
    funext j o
    rw [relu_out_eval]
    norm_num [reluForward, linForward]
  have hX : reluForward (fun (_ : Fin 1) (_ : Fin 1) => (1 : ℚ)) (fun _ => 0)
      0 1 (fun (_ : Fin 1) (_ : Fin 1) => (1 : ℚ)) =
      fun (_ : Fin 1) (_ : Fin 1) => (1 : ℚ) := by
    funext j o
    norm_num [reluForward, linForward, Fin.sum_univ_one]
  have hY : reluForward (fun (_ : Fin 1) (_ : Fin 1) => (1 : ℚ)) (fun _ => 0)
      0 1 (fun (_ : Fin 1) (_ : Fin 1) => (0 : ℚ)) =
      fun (_ : Fin 1) (_ : Fin 1) => (0 : ℚ) := by
    funext j o
    norm_num [reluForward, linForward]
  have hganal : relu_get_grad_data (fun (_ : Fin 1) (_ : Fin 1) => (1 : ℚ))
      (fun _ => 0) 0 1 (fun (_ : Fin 1) (_ : Fin 1) => (0 : ℚ)) =
      fun (_ : Fin 1) (_ : Fin 1) (_ : Fin 1) => (0 : ℚ) := by
    funext o j k
    norm_num [relu_get_grad_data, reluForward, linForward]
  unfold score_LinearReLUNetwork linear_score_LinearReLUNetwork
  rw [hsec, hgrad, hout, hX, hY, hganal]
  unfold kernel_model_score kernel_model_linear_score get_grad_hess
    get_gram_matrix get_pdist2 param_size kdiff eye
  norm_num [Fin.sum_univ_one]

/-- Witness for C1 at a concrete instance with nonzero pre-activations. -/
theorem claim_C1_witness :
    (∀ (j o : Fin 1),
        linForward (fun (_ : Fin 1) (_ : Fin 1) => (1 : ℚ)) (fun _ => 0)
          (fun (_ : Fin 1) (_ : Fin 1) => (1 : ℚ)) j o ≠ 0) ∧
      score_LinearNetwork (fun (_ : Fin 1) (_ : Fin 1) => (1 : ℚ)) (fun _ => 0)
          (fun (_ : Fin 1) (_ : Fin 1) => (1 : ℚ))
          (fun (_ : Fin 1) (_ : Fin 1) => (1 : ℚ)) (fun _ => 1) id 1 0 =
        linear_score_LinearNetwork (fun (_ : Fin 1) (_ : Fin 1) => (1 : ℚ))
          (fun _ => 0) (fun (_ : Fin 1) (_ : Fin 1) => (1 : ℚ))
          (fun (_ : Fin 1) (_ : Fin 1) => (1 : ℚ)) (fun _ => 1) id 1 0 ∧
      score_LinearReLUNetwork (fun (_ : Fin 1) (_ : Fin 1) => (1 : ℚ))
          (fun _ => 0) 0 1 (fun (_ : Fin 1) (_ : Fin 1) => (1 : ℚ))
          (fun (_ : Fin 1) (_ : Fin 1) => (1 : ℚ)) (fun _ => 1) id 1 0 =
        linear_score_LinearReLUNetwork (fun (_ : Fin 1) (_ : Fin 1) => (1 : ℚ))
          (fun _ => 0) 0 1 (fun (_ : Fin 1) (_ : Fin 1) => (1 : ℚ))
          (fun (_ : Fin 1) (_ : Fin 1) => (1 : ℚ)) (fun _ => 1) id 1 0 := by
  have h := claim_C1 (fun (_ : Fin 1) (_ : Fin 1) => (1 : ℚ)) (fun _ => 0) 0 1
    (fun (_ : Fin 1) (_ : Fin 1) => (1 : ℚ))
    (fun (_ : Fin 1) (_ : Fin 1) => (1 : ℚ)) (fun _ => 1) id 1 0
  have hnz : ∀ (j o : Fin 1),
      linForward (fun (_ : Fin 1) (_ : Fin 1) => (1 : ℚ)) (fun _ => 0)
        (fun (_ : Fin 1) (_ : Fin 1) => (1 : ℚ)) j o ≠ 0 := by
    intro j o
    norm_num [linForward, Fin.sum_univ_one]
  exact ⟨hnz, h.1, h.2.1 (h.2.2 rfl rfl hnz)⟩

/-! ## `LinearReLUNetwork.get_grad_data` (claim C8) -/

/-- Claim C8 (amended): the `LinearReLUNetwork` Jacobian is the weight matrix
gated per output coordinate by the activation slope (`lin_grads[1]` where the
output is positive, `lin_grads[0]` otherwise); when `lin_grads[1] = 1`, at
inputs where all pre-activations are strictly positive it equals the
`LinearNetwork` Jacobian; when both `lin_grads` are nonnegative, at inputs
where all pre-activations are strictly negative it equals the weight matrix
scaled by `lin_grads[0]`. -/
theorem claim_C8 {B Din dOut : ℕ} (W : Fin dOut → Fin Din → ℚ)
    (b : Fin dOut → ℚ) (g0 g1 : ℚ) (x : Fin B → Fin Din → ℚ) :
    (∀ o j k, relu_get_grad_data W b g0 g1 x o j k =
        (if 0 < reluForward W b g0 g1 x j o then g1 else g0) * W o k) ∧
      (g1 = 1 → (∀ j o, 0 < linForward W b x j o) →
        ∀ o j k, relu_get_grad_data W b g0 g1 x o j k =
          lin_get_grad_data W o j k) ∧
      (0 ≤ g0 → 0 ≤ g1 → (∀ j o, linForward W b x j o < 0) →
        ∀ o j k, relu_get_grad_data W b g0 g1 x o j k = g0 * W o k) := by
  have hgate : ∀ o j k, relu_get_grad_data W b g0 g1 x o j k =
      (if 0 < reluForward W b g0 g1 x j o then g1 else g0) * W o k := by
    intro o j k
    unfold relu_get_grad_data
    by_cases h : 0 < reluForward W b g0 g1 x j o
    · rw [if_pos h, if_pos h, if_neg (not_le.mpr h)]
      ring
    · rw [if_neg h, if_neg h, if_pos (not_lt.mp h)]
      ring
  refine ⟨hgate, ?_, ?_⟩
  · intro hg1 hpos o j k
    subst hg1
    have hout : 0 < reluForward W b g0 1 x j o := by
      have hz := hpos j o
      unfold reluForward
      rw [mul_one]
      exact lt_max_of_lt_left hz
    rw [hgate o j k, if_pos hout]
    unfold lin_get_grad_data
    ring
  · intro h0 h1 hneg o j k
    have hout : reluForward W b g0 g1 x j o ≤ 0 := by
      unfold reluForward
      exact max_le (mul_nonpos_iff.mpr (Or.inr ⟨(hneg j o).le, h1⟩))
        (mul_nonpos_iff.mpr (Or.inr ⟨(hneg j o).le, h0⟩))
    rw [hgate o j k, if_neg (not_lt.mpr hout)]

/-- Counterexample for C8 as frozen: with `lin_grads = [0, 2]` and all
pre-activations strictly positive, the `LinearReLUNetwork` Jacobian is `2 * W`,
not the `LinearNetwork` Jacobian `W`. -/
theorem claim_C8_counterexample :
    (∀ (j o : Fin 1),
        0 < linForward (fun (_ : Fin 1) (_ : Fin 1) => (1 : ℚ)) (fun _ => 0)
          (fun (_ : Fin 1) (_ : Fin 1) => (1 : ℚ)) j o) ∧
      relu_get_grad_data (fun (_ : Fin 1) (_ : Fin 1) => (1 : ℚ)) (fun _ => 0)
          0 2 (fun (_ : Fin 1) (_ : Fin 1) => (1 : ℚ)) 0 0 0 ≠
        lin_get_grad_data (B := 1) (fun (_ : Fin 1) (_ : Fin 1) => (1 : ℚ))
          0 0 0 := by
  constructor
  · intro j o
    norm_num [linForward, Fin.sum_univ_one]
  · norm_num [relu_get_grad_data, lin_get_grad_data, reluForward, linForward,
      Fin.sum_univ_one]

/-- Witness for C8 at a concrete instance with the default
`lin_grads = [0, 1]`. -/
theorem claim_C8_witness :
    relu_get_grad_data (fun (_ : Fin 1) (_ : Fin 1) => (1 : ℚ)) (fun _ => 0)
        0 1 (fun (_ : Fin 1) (_ : Fin 1) => (1 : ℚ)) 0 0 0 =
      lin_get_grad_data (B := 1) (fun (_ : Fin 1) (_ : Fin 1) => (1 : ℚ))
        0 0 0 :=
  (claim_C8 (fun _ _ => 1) (fun _ => 0) 0 1 (fun _ _ => 1)).2.1 rfl
    (by intro j o; norm_num [linForward, Fin.sum_univ_one]) 0 0 0

end DKEF
